import Mathlib

/-!
# Verification of the InnerCircle voice-session and schedule engines

A shallow embedding of the voice-first journaling client's core logic:

* the JavaScript string operations the client uses (`trim`, `split`,
  `join(" ")`, `parseInt`);
* the text-to-speech player `speak` (hook `useVoiceAI`), which races the
  platform completion callback against a computed timeout;
* the turn pipeline of `stopListening` (transcript commit, one-shot
  reflection exchange, fallback reply, TTS);
* the session screen's `handleEndSession` (transcript concatenation and
  journal persistence);
* the local notification scheduler `scheduleLocalNotifications` and
  `secondsUntilNextOccurrence`;
* the foreground schedule poll guard `checkAndPrompt`
  (`ScheduleContext`), and the degraded-mode transcription fallback of
  `transcribeAudioFile`.

Asynchronous effects are modelled by explicit oracles (when the platform
callback fires, whether the reflection endpoint succeeds, whether the OS
accepts a notification request), and observable effects by explicit event
lists in program order.
-/

namespace InnerCircle

/-! ## JavaScript string primitives -/

/-- Whitespace as recognised by JavaScript `String.prototype.trim`
(modelled by the usual ASCII whitespace characters). -/
def isWS (c : Char) : Bool := c.isWhitespace

/-- Trim on character lists: drop whitespace from the front, then from the
back (`rdropWhile`). -/
def trimChars (l : List Char) : List Char :=
  List.rdropWhile isWS (l.dropWhile isWS)

/-- JavaScript `text.trim()`. -/
def jsTrim (s : String) : String := ⟨trimChars s.data⟩

/-- JavaScript `array.join(" ")` on character lists. -/
def joinSpaceC : List (List Char) → List Char
  | [] => []
  | [s] => s
  | s :: rest => s ++ ' ' :: joinSpaceC rest

/-- JavaScript `array.join(" ")` on strings. -/
def joinSpace (l : List String) : String := ⟨joinSpaceC (l.map String.data)⟩

/-! ## SpeechPlayer: `speak` from `useVoiceAI`

`speak(text)` returns immediately when `text.trim()` is empty; otherwise it
sets `isSpeaking = true` and races the platform's `onDone`/`onError`
callbacks against a timeout of `max(3000, ceil(text.length / 15) * 1000)`
milliseconds.  Every branch of the race (and the surrounding `catch`)
sets `isSpeaking = false`. -/

/-- The computed timeout, in milliseconds:
`Math.max(3000, Math.ceil(text.length / 15) * 1000)`. -/
def timeoutMs (text : String) : Nat :=
  max 3000 ((text.length + 14) / 15 * 1000)

/-- When (in ms after the `Speech.speak` call) the platform callbacks would
fire; `none` means the callback never fires. -/
structure SpeakOracle where
  doneAt : Option Nat
  errAt : Option Nat
deriving DecidableEq, Repr

/-- Result of one `speak` call: when the promise resolves, the final
`isSpeaking` flag, and whether the speaking state was entered at all. -/
structure SpeakResult where
  resolveMs : Nat
  isSpeaking : Bool
  started : Bool
deriving DecidableEq, Repr

/-- `speak` from `useVoiceAI`: the guard `if (!text?.trim()) return`, then
`Promise.race` of the platform utterance promise (resolved by `onDone`,
rejected by `onError`, both setting `isSpeaking = false`) and a
`setTimeout` promise for `timeoutMs` (also setting `isSpeaking = false`);
a rejection is swallowed by the enclosing `catch`, which again sets
`isSpeaking = false`.  The race settles at the earliest of the three. -/
def speak (isSpeaking0 : Bool) (text : String) (o : SpeakOracle) : SpeakResult :=
  if jsTrim text = "" then
    { resolveMs := 0, isSpeaking := isSpeaking0, started := false }
  else
    let T := timeoutMs text
    { resolveMs := min T (min (o.doneAt.getD T) (o.errAt.getD T)),
      isSpeaking := false,
      started := true }

/-! ## ScheduleSyncEngine: `checkAndPrompt` from `ScheduleContext` -/

/-- Result of `checkScheduleFromBackend` (`null` on any failure is the
`none` case of the `Option` wrapping this). -/
structure CheckResult where
  shouldTrigger : Bool
  conversationMode : Option String
deriving DecidableEq, Repr

/-- JavaScript `result?.shouldTrigger` coerced to a boolean
(`undefined` is falsy). -/
def shouldTriggerOf : Option CheckResult → Bool
  | some r => r.shouldTrigger
  | none => false

/-- One `checkAndPrompt` call: given the backend check result and the
current `hasTriggeredThisSessionRef` guard, return the new guard value and
whether the confirmation alert was shown.  Mirrors
`if (!result?.shouldTrigger || hasTriggered) return; hasTriggered = true;
Alert.alert(...)`. -/
def checkAndPrompt (result : Option CheckResult) (hasTriggered : Bool) :
    Bool × Bool :=
  if shouldTriggerOf result = false ∨ hasTriggered = true then
    (hasTriggered, false)
  else
    (true, true)

/-- A sequence of `checkAndPrompt` calls within one foreground session
(regardless of whether each call came from the poll timer, the app-state
listener, or the initial mount check): final guard value and the number of
prompts shown. -/
def runChecks (g : Bool) : List (Option CheckResult) → Bool × Nat
  | [] => (g, 0)
  | r :: rs =>
    let step := checkAndPrompt r g
    let rest := runChecks step.1 rs
    (rest.1, (if step.2 then 1 else 0) + rest.2)

lemma checkAndPrompt_guard_true (r : Option CheckResult) :
    checkAndPrompt r true = (true, false) := by
  unfold checkAndPrompt
  simp

lemma runChecks_guard_true (rs : List (Option CheckResult)) :
    runChecks true rs = (true, 0) := by
  induction rs with
  | nil => rfl
  | cons r rs ih =>
      simp [runChecks, checkAndPrompt_guard_true, ih]

lemma runChecks_prompts_le (g : Bool) (rs : List (Option CheckResult)) :
    (runChecks g rs).2 ≤ if g then 0 else 1 := by
  induction rs generalizing g with
  | nil => cases g <;> simp [runChecks]
  | cons r rs ih =>
      cases g with
      | true => simp [runChecks_guard_true]
      | false =>
          by_cases h : shouldTriggerOf r = false
          · simpa [runChecks, checkAndPrompt, h] using ih false
          · simp [runChecks, checkAndPrompt, h, runChecks_guard_true]

/-- **C5.** Within one foreground session, any number of `checkAndPrompt`
invocations — from the poll timer, the background-to-active transition, or
the initial mount check — show the "is it a good time to talk" prompt at
most once: starting from a fresh guard, every sequence of calls produces
at most one prompt, and once the guard is set no call ever prompts or
clears it. -/
theorem checkAndPrompt_at_most_once (rs : List (Option CheckResult)) :
    (runChecks false rs).2 ≤ 1 ∧
      ∀ r : Option CheckResult, checkAndPrompt r true = (true, false) := by
  refine ⟨?_, checkAndPrompt_guard_true⟩
  simpa using runChecks_prompts_le false rs

/-- **C10.** The prompt guard is consumed only by a positive trigger: a
sequence of calls whose backend results are all negative (`shouldTrigger`
false, or `null` from a failed check) leaves the guard false and shows no
prompt, and a subsequent call observing a positive result still prompts. -/
theorem negative_checks_keep_budget (rs : List (Option CheckResult))
    (hneg : ∀ r ∈ rs, shouldTriggerOf r = false) :
    runChecks false rs = (false, 0) ∧
      ∀ r : Option CheckResult, shouldTriggerOf r = true →
        checkAndPrompt r (runChecks false rs).1 = (true, true) := by
  have hrun : runChecks false rs = (false, 0) := by
    induction rs with
    | nil => rfl
    | cons r rs ih =>
        have hr := hneg r (List.mem_cons_self r rs)
        have ih2 := ih fun x hx => hneg x (List.mem_cons_of_mem r hx)
        simp [runChecks, checkAndPrompt, hr, ih2]
  refine ⟨hrun, ?_⟩
  intro r hr
  rw [hrun]
  unfold checkAndPrompt
  simp [hr]

/-- Witness for `negative_checks_keep_budget`: two negative checks (one
failed, one `shouldTrigger = false`) followed by a positive one. -/
theorem negative_checks_keep_budget_witness :
    runChecks false [none, some ⟨false, none⟩] = (false, 0) ∧
      checkAndPrompt (some ⟨true, none⟩)
        (runChecks false [none, some ⟨false, none⟩]).1 = (true, true) := by
  have h := negative_checks_keep_budget [none, some ⟨false, none⟩]
    (by intro r hr; fin_cases hr <;> rfl)
  exact ⟨h.1, h.2 (some ⟨true, none⟩) rfl⟩

/-- **C3.** `speak(text)` always resolves: its resolution time never
exceeds the computed timeout `max(3000, ceil(len(text)/15)*1000)` ms even
if the platform completion callback never fires; for non-blank text every
winning branch (done, error, or timeout) leaves `isSpeaking = false`; and
absent a platform error the completion time is exactly the earlier of the
platform `onDone` callback and the computed timeout. -/
theorem speak_always_resolves (isSpeaking0 : Bool) (text : String)
    (o : SpeakOracle) :
    (speak isSpeaking0 text o).resolveMs ≤ timeoutMs text ∧
      (jsTrim text ≠ "" → (speak isSpeaking0 text o).isSpeaking = false) ∧
      (jsTrim text ≠ "" → o.errAt = none →
        (speak isSpeaking0 text o).resolveMs =
          min (timeoutMs text) (o.doneAt.getD (timeoutMs text))) := by
  by_cases h : jsTrim text = ""
  · refine ⟨?_, fun hne => absurd h hne, fun hne => absurd h hne⟩
    simp [speak, h]
  · refine ⟨?_, fun _ => by simp [speak, h], fun _ herr => ?_⟩
    · simp only [speak, if_neg h]
      exact Nat.min_le_left _ _
    · simp only [speak, if_neg h, herr, Option.getD_none]
      cases hd : o.doneAt with
      | none => simp
      | some d => simp only [Option.getD_some]; omega

/-- Witness for `speak_always_resolves`: concrete text with a platform
whose callbacks never fire; the call resolves at the timeout. -/
theorem speak_always_resolves_witness :
    (speak false "hello" ⟨none, none⟩).resolveMs ≤ timeoutMs "hello" ∧
      (speak false "hello" ⟨none, none⟩).isSpeaking = false ∧
      (speak false "hello" ⟨none, none⟩).resolveMs =
        min (timeoutMs "hello") ((none : Option Nat).getD (timeoutMs "hello")) := by
  have h := speak_always_resolves false "hello" ⟨none, none⟩
  exact ⟨h.1, h.2.1 (by decide), h.2.2 (by decide) rfl⟩

/-! ## Trimmed strings: facts about `jsTrim` and `joinSpace` -/

lemma trimChars_eq_self_of {l : List Char} (h1 : l.dropWhile isWS = l)
    (h2 : List.rdropWhile isWS l = l) : trimChars l = l := by
  unfold trimChars
  rw [h1, h2]

lemma of_trimChars_eq_self {l : List Char} (h : trimChars l = l) :
    l.dropWhile isWS = l ∧ List.rdropWhile isWS l = l := by
  have hsuf : (l.dropWhile isWS).IsSuffix l := List.dropWhile_suffix isWS
  have hpre : (trimChars l).IsPrefix (l.dropWhile isWS) :=
    List.rdropWhile_prefix isWS (l.dropWhile isWS)
  have hlen1 : (trimChars l).length ≤ (l.dropWhile isWS).length :=
    List.IsPrefix.length_le hpre
  have hlen2 : (l.dropWhile isWS).length ≤ l.length :=
    List.IsSuffix.length_le hsuf
  rw [h] at hlen1
  have hdw : l.dropWhile isWS = l :=
    List.IsSuffix.eq_of_length hsuf (Nat.le_antisymm hlen2 hlen1)
  refine ⟨hdw, ?_⟩
  have := h
  unfold trimChars at this
  rwa [hdw] at this

lemma trimChars_idem (l : List Char) : trimChars (trimChars l) = trimChars l := by
  apply trimChars_eq_self_of
  · cases hm : trimChars l with
    | nil => simp
    | cons c t =>
        have hpre : (trimChars l).IsPrefix (l.dropWhile isWS) :=
          List.rdropWhile_prefix isWS (l.dropWhile isWS)
        obtain ⟨rest, hrest⟩ := hpre
        rw [hm] at hrest
        have heq : l.dropWhile isWS = c :: (t ++ rest) := by
          rw [← hrest]; simp
        have hne : l.dropWhile isWS ≠ [] := by rw [heq]; simp
        have hnot := List.head_dropWhile_not isWS l hne
        simp only [heq, List.head_cons] at hnot
        simp [List.dropWhile_cons, hnot]
  · unfold trimChars
    exact List.rdropWhile_idempotent isWS (l.dropWhile isWS)

lemma jsTrim_idem (s : String) : jsTrim (jsTrim s) = jsTrim s := by
  unfold jsTrim
  rw [trimChars_idem]

lemma jsTrim_eq_empty_iff (s : String) : jsTrim s = "" ↔ trimChars s.data = [] := by
  unfold jsTrim
  constructor
  · intro h
    have := congrArg String.data h
    simpa using this
  · intro h
    rw [h]

/-- A committed transcript: unchanged by a further `trim`, and non-blank.
All `user` messages appended by the engine satisfy this. -/
def CommittedText (s : String) : Prop := jsTrim s = s ∧ s ≠ ""

lemma committed_noops {s : String} (h : CommittedText s) :
    s.data ≠ [] ∧ s.data.dropWhile isWS = s.data ∧
      List.rdropWhile isWS s.data = s.data := by
  rcases h with ⟨ht, hne⟩
  have hdata : trimChars s.data = s.data := by
    have := congrArg String.data ht
    simpa [jsTrim] using this
  have hd := of_trimChars_eq_self hdata
  refine ⟨?_, hd.1, hd.2⟩
  intro hnil
  apply hne
  cases s with
  | mk d => simp_all

lemma joinSpaceC_noops (l : List (List Char)) (hl : l ≠ [])
    (h : ∀ x ∈ l, x ≠ [] ∧ x.dropWhile isWS = x ∧ List.rdropWhile isWS x = x) :
    joinSpaceC l ≠ [] ∧ (joinSpaceC l).dropWhile isWS = joinSpaceC l ∧
      List.rdropWhile isWS (joinSpaceC l) = joinSpaceC l := by
  induction l with
  | nil => exact absurd rfl hl
  | cons x r ih =>
      cases r with
      | nil =>
          have hx := h x (by simp)
          simpa [joinSpaceC] using hx
      | cons y r2 =>
          have hx := h x (by simp)
          obtain ⟨hxne, hxdw, hxrdw⟩ := hx
          have hj := ih (by simp) (fun z hz => h z (List.mem_cons_of_mem x hz))
          obtain ⟨hjne, hjdw, hjrdw⟩ := hj
          have hjoin : joinSpaceC (x :: y :: r2) = x ++ ' ' :: joinSpaceC (y :: r2) := rfl
          cases x with
          | nil => exact absurd rfl hxne
          | cons c t =>
              have hc : isWS c = false := by
                by_contra hcontra
                have hcw : isWS c = true := by
                  cases hval : isWS c with
                  | false => exact absurd hval hcontra
                  | true => rfl
                rw [List.dropWhile_cons, if_pos hcw] at hxdw
                have hlen := congrArg List.length hxdw
                have hle : (List.dropWhile isWS t).length ≤ t.length :=
                  List.IsSuffix.length_le (List.dropWhile_suffix isWS)
                simp at hlen
                omega
              refine ⟨by simp [hjoin], ?_, ?_⟩
              · rw [hjoin]
                show List.dropWhile isWS (c :: (t ++ ' ' :: joinSpaceC (y :: r2)))
                  = c :: (t ++ ' ' :: joinSpaceC (y :: r2))
                rw [List.dropWhile_cons, if_neg (by simp [hc])]
              · rw [hjoin]
                rw [List.rdropWhile_eq_self_iff]
                intro hne
                have hgl : (c :: t ++ ' ' :: joinSpaceC (y :: r2)).getLast hne
                    = (joinSpaceC (y :: r2)).getLast hjne := by
                  rw [List.getLast_append' (c :: t) (' ' :: joinSpaceC (y :: r2)) (by simp)]
                  exact List.getLast_cons hjne
                rw [hgl]
                have := (List.rdropWhile_eq_self_iff).mp hjrdw hjne
                exact this

lemma mk_ne_empty {l : List Char} (h : l ≠ []) : (⟨l⟩ : String) ≠ "" := by
  intro hcontra
  apply h
  have := congrArg String.data hcontra
  simpa using this

/-- Joining committed transcripts with `" "` yields a committed
transcript: the session-level transcript built by `handleEndSession` is
itself non-blank and unchanged by its final `trim`. -/
lemma joinSpace_committed (l : List String) (hl : l ≠ [])
    (h : ∀ s ∈ l, CommittedText s) : CommittedText (joinSpace l) := by
  have hmap : l.map String.data ≠ [] := by
    intro hc
    exact hl (List.map_eq_nil_iff.mp hc)
  have helts : ∀ x ∈ l.map String.data, x ≠ [] ∧ x.dropWhile isWS = x ∧
      List.rdropWhile isWS x = x := by
    intro x hx
    obtain ⟨s, hs, rfl⟩ := List.mem_map.mp hx
    exact committed_noops (h s hs)
  have hj := joinSpaceC_noops (l.map String.data) hmap helts
  refine ⟨?_, mk_ne_empty hj.1⟩
  show (⟨trimChars (joinSpace l).data⟩ : String) = joinSpace l
  have hdata : (joinSpace l).data = joinSpaceC (l.map String.data) := rfl
  rw [hdata, trimChars_eq_self_of hj.2.1 hj.2.2]
  rfl

/-! ## VoiceSessionEngine: the turn pipeline of `stopListening`

A completed turn runs the tail of `stopListening` (`useVoiceAI`): the final
transcript is `fullTranscript.current.trim()`; a non-blank transcript is
reported through `onTranscript` (the screen appends a `user` message); if
`recordOnly` is off and `hasRespondedRef` is still false, the flag is set
(synchronously, before the `await` on the reflection endpoint), the
reflection call is dispatched, the reply (or, on any thrown
network/timeout/non-2xx error or a blank reply, the fixed fallback string)
is appended as an `assistant` message and spoken; a blank transcript
appends nothing and reports "no speech detected" through `onError`.
Asynchronous results are supplied by a `TurnOracle`. -/

inductive Role
  | user
  | assistant
deriving DecidableEq, Repr

/-- A screen message (`VoiceSessionScreen`); the synthetic id/timestamp
are irrelevant to the verified properties and omitted. -/
structure Message where
  role : Role
  content : String
deriving DecidableEq, Repr

/-- Observable events of one turn, in program order. -/
inductive Ev
  | appendUser (t : String)
  | setRespondedFlag
  | agentCall (input : String)
  | appendAssistant (t : String)
  | ttsStart (t : String)
  | uiError (msg : String)
deriving DecidableEq, Repr

/-- Engine + screen state relevant to the session invariants:
`hasRespondedRef` and the screen's append-only message log. -/
structure EngineState where
  hasRespondedOnce : Bool
  messages : List Message
deriving DecidableEq, Repr

/-- `resetForNewSession` / a freshly mounted screen. -/
def initialSession : EngineState := { hasRespondedOnce := false, messages := [] }

/-- Outcome of one completed turn, as the `TurnOracle` supplies it:
the value of `fullTranscript.current` when recording stopped (streaming
commits or the fallback upload), and the reflection endpoint's behaviour
(`Except.error` models a thrown `ApiError`, network failure, or timeout). -/
structure TurnOracle where
  rawTranscript : String
  reflection : Except Unit String
deriving Repr

/-- The fixed empathetic fallback reply used when the reflection call
fails or returns a blank reply. -/
def fallbackReply : String := "Thank you for sharing. I\x27m here to listen."

/-- The reply actually used:
`let response = fallback; try { res = await getReflection(...);
if (res?.response?.trim()) response = res.response.trim(); } catch {}`. -/
def reflectionReply : Except Unit String → String
  | Except.ok r => if jsTrim r = "" then fallbackReply else jsTrim r
  | Except.error _ => fallbackReply

/-- Events `speak t` contributes: nothing when `t.trim()` is blank,
otherwise the speaking state is entered. -/
def speakEvents (t : String) : List Ev :=
  if jsTrim t = "" then [] else [Ev.ttsStart t]

/-- The message "No speech detected. Please try again." reported via
`onError` for an empty final transcript. -/
def noSpeechMsg : String := "No speech detected. Please try again."

/-- The transcript-processing tail of `stopListening`, for one completed
turn. -/
def processTurn (recordOnly : Bool) (o : TurnOracle) (s : EngineState) :
    EngineState × List Ev :=
  let t := jsTrim o.rawTranscript
  if t = "" then
    (s, [Ev.uiError noSpeechMsg])
  else
    let s1 : EngineState := { s with messages := s.messages ++ [⟨Role.user, t⟩] }
    if recordOnly then
      (s1, [Ev.appendUser t])
    else if s.hasRespondedOnce then
      (s1, [Ev.appendUser t])
    else
      let resp := reflectionReply o.reflection
      ({ hasRespondedOnce := true,
         messages := s1.messages ++ [⟨Role.assistant, resp⟩] },
       [Ev.appendUser t, Ev.setRespondedFlag, Ev.agentCall t,
         Ev.appendAssistant resp] ++ speakEvents resp)

/-- A session: a sequence of completed turns. -/
def runTurns (recordOnly : Bool) (s : EngineState) :
    List TurnOracle → EngineState × List Ev
  | [] => (s, [])
  | o :: os =>
    let step := processTurn recordOnly o s
    let rest := runTurns recordOnly step.1 os
    (rest.1, step.2 ++ rest.2)

/-- Number of reflection-agent dispatches in an event trace. -/
def countAgentCalls (evs : List Ev) : Nat :=
  (evs.filter fun e => match e with
    | Ev.agentCall _ => true
    | _ => false).length

lemma countAgentCalls_append (a b : List Ev) :
    countAgentCalls (a ++ b) = countAgentCalls a + countAgentCalls b := by
  simp [countAgentCalls]

lemma countAgentCalls_speakEvents (t : String) :
    countAgentCalls (speakEvents t) = 0 := by
  unfold speakEvents
  by_cases h : jsTrim t = "" <;> simp [h, countAgentCalls]

/-- The fallback reply is itself a committed transcript. -/
lemma fallbackReply_committed : CommittedText fallbackReply := by
  constructor <;> decide

lemma reflectionReply_committed (e : Except Unit String) :
    CommittedText (reflectionReply e) := by
  cases e with
  | error _ => exact fallbackReply_committed
  | ok r =>
      by_cases h : jsTrim r = ""
      · simpa [reflectionReply, h] using fallbackReply_committed
      · exact ⟨by simpa [reflectionReply, h] using jsTrim_idem r, by simp [reflectionReply, h]⟩

lemma speakEvents_of_committed {t : String} (h : CommittedText t) :
    speakEvents t = [Ev.ttsStart t] := by
  unfold speakEvents
  rw [if_neg]
  rw [h.1]
  exact h.2

/-- Branch facts for `processTurn`. -/
lemma processTurn_empty {recordOnly : Bool} {o : TurnOracle} {s : EngineState}
    (h : jsTrim o.rawTranscript = "") :
    processTurn recordOnly o s = (s, [Ev.uiError noSpeechMsg]) := by
  unfold processTurn
  simp [h]

lemma processTurn_responded {recordOnly : Bool} {o : TurnOracle} {s : EngineState}
    (ht : jsTrim o.rawTranscript ≠ "") (hflag : s.hasRespondedOnce = true) :
    processTurn recordOnly o s =
      ({ s with messages := s.messages ++ [⟨Role.user, jsTrim o.rawTranscript⟩] },
        [Ev.appendUser (jsTrim o.rawTranscript)]) := by
  unfold processTurn
  by_cases hro : recordOnly <;> simp [ht, hflag, hro]

lemma processTurn_recordOnly {o : TurnOracle} {s : EngineState}
    (ht : jsTrim o.rawTranscript ≠ "") :
    processTurn true o s =
      ({ s with messages := s.messages ++ [⟨Role.user, jsTrim o.rawTranscript⟩] },
        [Ev.appendUser (jsTrim o.rawTranscript)]) := by
  unfold processTurn
  simp [ht]

lemma processTurn_exchange {o : TurnOracle} {s : EngineState}
    (ht : jsTrim o.rawTranscript ≠ "") (hflag : s.hasRespondedOnce = false) :
    processTurn false o s =
      ({ hasRespondedOnce := true,
         messages := s.messages ++ [⟨Role.user, jsTrim o.rawTranscript⟩,
           ⟨Role.assistant, reflectionReply o.reflection⟩] },
        [Ev.appendUser (jsTrim o.rawTranscript), Ev.setRespondedFlag,
          Ev.agentCall (jsTrim o.rawTranscript),
          Ev.appendAssistant (reflectionReply o.reflection),
          Ev.ttsStart (reflectionReply o.reflection)]) := by
  unfold processTurn
  simp [ht, hflag, speakEvents_of_committed (reflectionReply_committed o.reflection)]

/-- Flag monotonicity: `hasRespondedRef` is never reset within a session. -/
lemma processTurn_flag_mono (recordOnly : Bool) (o : TurnOracle) (s : EngineState)
    (h : s.hasRespondedOnce = true) :
    (processTurn recordOnly o s).1.hasRespondedOnce = true := by
  by_cases ht : jsTrim o.rawTranscript = ""
  · rw [processTurn_empty ht]; exact h
  · rw [processTurn_responded ht h]; exact h

lemma processTurn_calls_of_responded (recordOnly : Bool) (o : TurnOracle)
    (s : EngineState) (h : s.hasRespondedOnce = true) :
    countAgentCalls (processTurn recordOnly o s).2 = 0 := by
  by_cases ht : jsTrim o.rawTranscript = ""
  · rw [processTurn_empty ht]; rfl
  · rw [processTurn_responded ht h]; rfl

lemma countAgentCalls_user (t : String) :
    countAgentCalls [Ev.appendUser t] = 0 := rfl

lemma countAgentCalls_noSpeech :
    countAgentCalls [Ev.uiError noSpeechMsg] = 0 := rfl

lemma countAgentCalls_exchange (t r : String) :
    countAgentCalls [Ev.appendUser t, Ev.setRespondedFlag, Ev.agentCall t,
      Ev.appendAssistant r, Ev.ttsStart r] = 1 := rfl

lemma processTurn_empty_fst {recordOnly : Bool} {o : TurnOracle} {s : EngineState}
    (h : jsTrim o.rawTranscript = "") : (processTurn recordOnly o s).1 = s := by
  rw [processTurn_empty h]

lemma processTurn_empty_snd {recordOnly : Bool} {o : TurnOracle} {s : EngineState}
    (h : jsTrim o.rawTranscript = "") :
    (processTurn recordOnly o s).2 = [Ev.uiError noSpeechMsg] := by
  rw [processTurn_empty h]

lemma processTurn_recordOnly_snd {o : TurnOracle} {s : EngineState}
    (ht : jsTrim o.rawTranscript ≠ "") :
    (processTurn true o s).2 = [Ev.appendUser (jsTrim o.rawTranscript)] := by
  rw [processTurn_recordOnly ht]

lemma processTurn_recordOnly_flag {o : TurnOracle} {s : EngineState}
    (ht : jsTrim o.rawTranscript ≠ "") :
    (processTurn true o s).1.hasRespondedOnce = s.hasRespondedOnce := by
  rw [processTurn_recordOnly ht]

lemma processTurn_exchange_snd {o : TurnOracle} {s : EngineState}
    (ht : jsTrim o.rawTranscript ≠ "") (hflag : s.hasRespondedOnce = false) :
    (processTurn false o s).2 =
      [Ev.appendUser (jsTrim o.rawTranscript), Ev.setRespondedFlag,
        Ev.agentCall (jsTrim o.rawTranscript),
        Ev.appendAssistant (reflectionReply o.reflection),
        Ev.ttsStart (reflectionReply o.reflection)] := by
  rw [processTurn_exchange ht hflag]

lemma processTurn_exchange_flag {o : TurnOracle} {s : EngineState}
    (ht : jsTrim o.rawTranscript ≠ "") (hflag : s.hasRespondedOnce = false) :
    (processTurn false o s).1.hasRespondedOnce = true := by
  rw [processTurn_exchange ht hflag]

/-- The per-turn dispatch bound, relative to the flag: a session whose
flag is already set dispatches no call; otherwise at most one. -/
lemma runTurns_calls_le (recordOnly : Bool) (s : EngineState)
    (os : List TurnOracle) :
    countAgentCalls (runTurns recordOnly s os).2 ≤
      if s.hasRespondedOnce then 0 else 1 := by
  induction os generalizing s with
  | nil => cases h : s.hasRespondedOnce <;> simp [runTurns, countAgentCalls]
  | cons o os ih =>
      show countAgentCalls ((processTurn recordOnly o s).2 ++
        (runTurns recordOnly (processTurn recordOnly o s).1 os).2) ≤ _
      rw [countAgentCalls_append]
      have h2 := ih (processTurn recordOnly o s).1
      cases hflag : s.hasRespondedOnce with
      | true =>
          have h1 := processTurn_calls_of_responded recordOnly o s hflag
          rw [processTurn_flag_mono recordOnly o s hflag] at h2
          simp only [if_pos] at h2 ⊢
          omega
      | false =>
          simp only [Bool.false_eq_true, if_false]
          by_cases ht : jsTrim o.rawTranscript = ""
          · rw [processTurn_empty_snd ht, countAgentCalls_noSpeech,
              processTurn_empty_fst ht]
            rw [processTurn_empty_fst ht, hflag] at h2
            simp only [Bool.false_eq_true, if_false] at h2
            omega
          · cases recordOnly with
            | true =>
                rw [processTurn_recordOnly_snd ht, countAgentCalls_user]
                rw [processTurn_recordOnly_flag ht, hflag] at h2
                simp only [Bool.false_eq_true, if_false] at h2
                omega
            | false =>
                rw [processTurn_exchange_snd ht hflag, countAgentCalls_exchange]
                rw [processTurn_exchange_flag ht hflag] at h2
                simp only [if_true] at h2
                omega

lemma processTurn_responded_messages {recordOnly : Bool} {o : TurnOracle}
    {s : EngineState} (ht : jsTrim o.rawTranscript ≠ "")
    (hflag : s.hasRespondedOnce = true) :
    (processTurn recordOnly o s).1.messages =
      s.messages ++ [⟨Role.user, jsTrim o.rawTranscript⟩] := by
  rw [processTurn_responded ht hflag]

lemma processTurn_exchange_messages {o : TurnOracle} {s : EngineState}
    (ht : jsTrim o.rawTranscript ≠ "") (hflag : s.hasRespondedOnce = false) :
    (processTurn false o s).1.messages =
      s.messages ++ [⟨Role.user, jsTrim o.rawTranscript⟩,
        ⟨Role.assistant, reflectionReply o.reflection⟩] := by
  rw [processTurn_exchange ht hflag]

/-- **C1.** The reflection agent is invoked at most once per session:
(1) across any sequence of completed turns from a fresh session, at most
one reflection call is dispatched; (2) `hasRespondedOnce` is monotone
(never reset by a turn), so it transitions false→true at most once between
two `resetForNewSession` calls; (3) within a turn's event trace the flag
is set strictly before the reflection call is dispatched (the source sets
`hasRespondedRef.current = true` synchronously before the `await`, so a
slow response cannot race a second user turn into a second call); (4) once
the flag is set, a further non-empty user turn still appends the user
message to the log but dispatches no agent call and starts no TTS. -/
theorem reflection_agent_at_most_once :
    (∀ (recordOnly : Bool) (os : List TurnOracle),
      countAgentCalls (runTurns recordOnly initialSession os).2 ≤ 1) ∧
    (∀ (recordOnly : Bool) (o : TurnOracle) (s : EngineState),
      s.hasRespondedOnce = true →
        (processTurn recordOnly o s).1.hasRespondedOnce = true) ∧
    (∀ (recordOnly : Bool) (o : TurnOracle) (s : EngineState) (i : Nat)
      (t : String),
      ((processTurn recordOnly o s).2)[i]? = some (Ev.agentCall t) →
        ∃ j, j < i ∧ ((processTurn recordOnly o s).2)[j]? = some Ev.setRespondedFlag) ∧
    (∀ (recordOnly : Bool) (o : TurnOracle) (s : EngineState),
      s.hasRespondedOnce = true →
        countAgentCalls (processTurn recordOnly o s).2 = 0 ∧
        (∀ u, Ev.ttsStart u ∉ (processTurn recordOnly o s).2) ∧
        (jsTrim o.rawTranscript ≠ "" →
          (processTurn recordOnly o s).1.messages =
            s.messages ++ [⟨Role.user, jsTrim o.rawTranscript⟩])) := by
  refine ⟨?_, processTurn_flag_mono, ?_, ?_⟩
  · intro recordOnly os
    have h := runTurns_calls_le recordOnly initialSession os
    simpa [initialSession] using h
  · intro recordOnly o s i t h
    by_cases ht : jsTrim o.rawTranscript = ""
    · rw [processTurn_empty_snd ht] at h
      rcases i with _ | i <;> simp at h
    · cases hflag : s.hasRespondedOnce with
      | true =>
          rw [processTurn_responded ht hflag] at h
          rcases i with _ | i <;> simp at h
      | false =>
          cases recordOnly with
          | true =>
              rw [processTurn_recordOnly_snd ht] at h
              rcases i with _ | i <;> simp at h
          | false =>
              rw [processTurn_exchange_snd ht hflag] at h ⊢
              rcases i with _ | _ | _ | _ | _ | i <;> simp at h
              exact ⟨1, by omega, rfl⟩
  · intro recordOnly o s hflag
    refine ⟨processTurn_calls_of_responded recordOnly o s hflag, ?_, ?_⟩
    · intro u
      by_cases ht : jsTrim o.rawTranscript = ""
      · rw [processTurn_empty_snd ht]; simp
      · rw [processTurn_responded ht hflag]; simp
    · intro ht
      exact processTurn_responded_messages ht hflag

/-- Witness for `reflection_agent_at_most_once`: a fresh two-turn session
makes at most one call, and a turn on an already-responded session makes
none, still appending the captured user message. -/
theorem reflection_agent_at_most_once_witness :
    countAgentCalls (runTurns false initialSession
      [⟨"hi there", Except.ok "reply"⟩, ⟨"more talk", Except.ok "again"⟩]).2 ≤ 1 ∧
    countAgentCalls (processTurn false ⟨"more talk", Except.ok "again"⟩
      ⟨true, []⟩).2 = 0 ∧
    (processTurn false ⟨"more talk", Except.ok "again"⟩ ⟨true, []⟩).1.messages =
      [] ++ [⟨Role.user, jsTrim "more talk"⟩] := by
  have h := reflection_agent_at_most_once
  refine ⟨h.1 false _, ?_, ?_⟩
  · exact (h.2.2.2 false ⟨"more talk", Except.ok "again"⟩ ⟨true, []⟩ rfl).1
  · exact (h.2.2.2 false ⟨"more talk", Except.ok "again"⟩ ⟨true, []⟩ rfl).2.2
      (by decide)

/-- **C7.** A turn whose final committed transcript is empty appends no
message (neither user nor assistant), leaves the session state unchanged
(so the machine returns directly to idle, with no speaking phase),
surfaces the recoverable "no speech detected" condition through `onError`,
and performs no reflection call and no speech playback. -/
theorem empty_transcript_turn (recordOnly : Bool) (o : TurnOracle)
    (s : EngineState) (h : jsTrim o.rawTranscript = "") :
    processTurn recordOnly o s = (s, [Ev.uiError noSpeechMsg]) ∧
    (processTurn recordOnly o s).1.messages = s.messages ∧
    countAgentCalls (processTurn recordOnly o s).2 = 0 ∧
    (∀ u, Ev.ttsStart u ∉ (processTurn recordOnly o s).2) ∧
    (∀ t, Ev.appendUser t ∉ (processTurn recordOnly o s).2) ∧
    (∀ t, Ev.appendAssistant t ∉ (processTurn recordOnly o s).2) ∧
    Ev.uiError noSpeechMsg ∈ (processTurn recordOnly o s).2 := by
  refine ⟨processTurn_empty h, ?_, ?_, ?_, ?_, ?_, ?_⟩ <;>
    rw [processTurn_empty] <;> simp [countAgentCalls, h]

/-- Witness for `empty_transcript_turn`: a whitespace-only transcript. -/
theorem empty_transcript_turn_witness :
    processTurn false ⟨"   ", Except.ok "reply"⟩ initialSession =
      (initialSession, [Ev.uiError noSpeechMsg]) ∧
    countAgentCalls (processTurn false ⟨"   ", Except.ok "reply"⟩
      initialSession).2 = 0 := by
  have h := empty_transcript_turn false ⟨"   ", Except.ok "reply"⟩
    initialSession (by decide)
  exact ⟨h.1, h.2.2.1⟩

/-- **C6.** When the reflection call fails (thrown network error, timeout,
or non-2xx `ApiError`), the turn still completes with the fixed
empathetic fallback string: the assistant message is appended with the
fallback text, the session transitions to speaking that fallback, and no
error is surfaced to the UI layer (`onError` is never invoked on this
path). -/
theorem reflection_failure_fallback (o : TurnOracle) (s : EngineState)
    (ht : jsTrim o.rawTranscript ≠ "") (hflag : s.hasRespondedOnce = false)
    (herr : o.reflection = Except.error ()) :
    (processTurn false o s).2 =
      [Ev.appendUser (jsTrim o.rawTranscript), Ev.setRespondedFlag,
        Ev.agentCall (jsTrim o.rawTranscript),
        Ev.appendAssistant fallbackReply, Ev.ttsStart fallbackReply] ∧
    (processTurn false o s).1.messages =
      s.messages ++ [⟨Role.user, jsTrim o.rawTranscript⟩,
        ⟨Role.assistant, fallbackReply⟩] ∧
    (∀ m, Ev.uiError m ∉ (processTurn false o s).2) ∧
    Ev.ttsStart fallbackReply ∈ (processTurn false o s).2 := by
  have hr : reflectionReply o.reflection = fallbackReply := by
    rw [herr]
    rfl
  refine ⟨?_, ?_, ?_, ?_⟩
  · rw [processTurn_exchange_snd ht hflag, hr]
  · rw [processTurn_exchange_messages ht hflag, hr]
  · intro m
    rw [processTurn_exchange_snd ht hflag]
    simp
  · rw [processTurn_exchange_snd ht hflag, hr]
    simp

/-- Witness for `reflection_failure_fallback`: a failing reflection call
on a concrete non-empty transcript. -/
theorem reflection_failure_fallback_witness :
    (processTurn false ⟨" hi ", Except.error ()⟩ initialSession).2 =
      [Ev.appendUser (jsTrim " hi "), Ev.setRespondedFlag,
        Ev.agentCall (jsTrim " hi "),
        Ev.appendAssistant fallbackReply, Ev.ttsStart fallbackReply] ∧
    Ev.ttsStart fallbackReply ∈
      (processTurn false ⟨" hi ", Except.error ()⟩ initialSession).2 := by
  have h := reflection_failure_fallback ⟨" hi ", Except.error ()⟩
    initialSession (by decide) rfl rfl
  exact ⟨h.1, h.2.2.2⟩

/-! ## Session end: `handleEndSession` (`VoiceSessionScreen`)

`handleEndSession` stops speech playback, computes
`messages.filter(m => m.role === "user").map(m => m.content).join(" ")`,
persists it via `api.journals.create` only when `transcript.trim()` is
non-empty, and navigates away. -/

inductive EndEv
  | stopSpeak
  | persist (content : String)
  | navigate
deriving DecidableEq, Repr

/-- `messages.filter((m) => m.role === "user").map((m) => m.content)`. -/
def userContents (msgs : List Message) : List String :=
  (msgs.filter fun m => decide (m.role = Role.user)).map Message.content

/-- The effects of `handleEndSession`, in program order: stop playback,
then (only for a non-blank transcript) one `api.journals.create` call
with the trimmed space-joined transcript, then navigation. -/
def handleEndSession (msgs : List Message) : List EndEv :=
  let transcript := joinSpace (userContents msgs)
  [EndEv.stopSpeak] ++
    (if jsTrim transcript = "" then [] else [EndEv.persist (jsTrim transcript)]) ++
    [EndEv.navigate]

/-- The journal-persistence calls in an end-session trace. -/
def persistCalls (evs : List EndEv) : List String :=
  evs.filterMap fun e => match e with
    | EndEv.persist c => some c
    | _ => none

/-- Every `user` message in the log carries a committed (trimmed,
non-blank) transcript. -/
def GoodLog (msgs : List Message) : Prop :=
  ∀ m ∈ msgs, m.role = Role.user → CommittedText m.content

lemma GoodLog_append {a b : List Message} (ha : GoodLog a) (hb : GoodLog b) :
    GoodLog (a ++ b) := by
  intro m hm hrole
  rcases List.mem_append.mp hm with h | h
  · exact ha m h hrole
  · exact hb m h hrole

lemma GoodLog_processTurn (recordOnly : Bool) (o : TurnOracle) (s : EngineState)
    (h : GoodLog s.messages) : GoodLog (processTurn recordOnly o s).1.messages := by
  by_cases ht : jsTrim o.rawTranscript = ""
  · rw [processTurn_empty_fst ht]
    exact h
  · have huser : GoodLog [⟨Role.user, jsTrim o.rawTranscript⟩] := by
      intro m hm hrole
      rcases List.mem_singleton.mp hm with rfl
      exact ⟨jsTrim_idem o.rawTranscript, ht⟩
    cases hflag : s.hasRespondedOnce with
    | true =>
        rw [processTurn_responded_messages ht hflag]
        exact GoodLog_append h huser
    | false =>
        cases recordOnly with
        | true =>
            have hmsg : (processTurn true o s).1.messages =
                s.messages ++ [⟨Role.user, jsTrim o.rawTranscript⟩] := by
              rw [processTurn_recordOnly ht]
            rw [hmsg]
            exact GoodLog_append h huser
        | false =>
            rw [processTurn_exchange_messages ht hflag]
            have hpair : GoodLog [⟨Role.user, jsTrim o.rawTranscript⟩,
                ⟨Role.assistant, reflectionReply o.reflection⟩] := by
              intro m hm hrole
              rcases hm with _ | ⟨_, hm⟩
              · exact ⟨jsTrim_idem o.rawTranscript, ht⟩
              · rcases hm with _ | ⟨_, hm⟩
                · cases hrole
                · cases hm
            exact GoodLog_append h hpair

lemma GoodLog_runTurns (recordOnly : Bool) (s : EngineState)
    (os : List TurnOracle) (h : GoodLog s.messages) :
    GoodLog (runTurns recordOnly s os).1.messages := by
  induction os generalizing s with
  | nil => exact h
  | cons o os ih => exact ih _ (GoodLog_processTurn recordOnly o s h)

lemma userContents_committed {msgs : List Message} (h : GoodLog msgs) :
    ∀ t ∈ userContents msgs, CommittedText t := by
  intro t ht
  obtain ⟨m, hm, rfl⟩ := List.mem_map.mp ht
  have hf := List.mem_filter.mp hm
  exact h m hf.1 (of_decide_eq_true hf.2)

/-- **C2.** For every session log reachable from the turn pipeline (every
`user` message is a committed transcript — established by the second
conjunct): ending the session with zero `user` messages makes no
journal-persistence call; ending with at least one makes exactly one call
whose content is the space-joined concatenation of all `user` messages'
texts in chronological order; and speech playback is stopped first. -/
theorem endSession_persistence :
    (∀ msgs : List Message, GoodLog msgs →
      (userContents msgs = [] → persistCalls (handleEndSession msgs) = []) ∧
      (userContents msgs ≠ [] →
        persistCalls (handleEndSession msgs) = [joinSpace (userContents msgs)]) ∧
      (handleEndSession msgs).head? = some EndEv.stopSpeak) ∧
    (∀ (recordOnly : Bool) (s : EngineState) (os : List TurnOracle),
      GoodLog s.messages → GoodLog (runTurns recordOnly s os).1.messages) := by
  refine ⟨?_, GoodLog_runTurns⟩
  intro msgs hgood
  refine ⟨?_, ?_, ?_⟩
  · intro hempty
    have hts : jsTrim (joinSpace (userContents msgs)) = "" := by
      rw [hempty]
      decide
    simp [handleEndSession, persistCalls, hts]
  · intro hne
    have hc : CommittedText (joinSpace (userContents msgs)) :=
      joinSpace_committed _ hne (userContents_committed hgood)
    have hts : jsTrim (joinSpace (userContents msgs)) =
        joinSpace (userContents msgs) := hc.1
    simp [handleEndSession, persistCalls, hts, hc.2]
  · by_cases hts : jsTrim (joinSpace (userContents msgs)) = "" <;>
      simp [handleEndSession, hts]

/-- Witness for `endSession_persistence`: a log with two user messages
persists exactly one entry holding both texts joined by a space, and a
log with none persists nothing. -/
theorem endSession_persistence_witness :
    persistCalls (handleEndSession
      [⟨Role.user, "hello"⟩, ⟨Role.assistant, "reply"⟩, ⟨Role.user, "world"⟩]) =
      [joinSpace (userContents
        [⟨Role.user, "hello"⟩, ⟨Role.assistant, "reply"⟩, ⟨Role.user, "world"⟩])] ∧
    persistCalls (handleEndSession [⟨Role.assistant, "reply"⟩]) = [] := by
  have h1 := (endSession_persistence.1
    [⟨Role.user, "hello"⟩, ⟨Role.assistant, "reply"⟩, ⟨Role.user, "world"⟩]
    (by intro m hm hrole; fin_cases hm <;> simp_all [CommittedText] <;> decide)).2.1
    (by decide)
  have h2 := (endSession_persistence.1 [⟨Role.assistant, "reply"⟩]
    (by intro m hm hrole; fin_cases hm <;> simp_all)).1 (by decide)
  exact ⟨h1, h2⟩

/-! ## LocalNotificationScheduler (`scheduleNotifications` service)

`scheduleLocalNotifications(time, daysOfWeek, enabled, conversationMode)`
cancels all scheduled notifications, returns early when disabled or no
days are selected, requires notification permission, computes the delay
via `secondsUntilNextOccurrence`, and schedules exactly one non-repeating
`TIME_INTERVAL` trigger.  Wall-clock time is modelled as milliseconds
since local midnight (`nowMs < 86400000`); the OS pending-notification
store as a list. -/

/-- `MIN_SECONDS = 60` (platform reliability minimum). -/
def MIN_SECONDS : Nat := 60

/-- `secondsUntilNextOccurrence(hour, minute)`: the target is today's
`hour:minute:00.000` (`next.setHours(hour, minute, 0, 0)`); if that is not
in the future (`next <= now`), one day is added; the result is
`Math.max(MIN_SECONDS, Math.floor((next - now) / 1000))`. -/
def secondsUntilNextOccurrence (nowMs hour minute : Nat) : Nat :=
  let target := (hour * 60 + minute) * 60000
  let nextMs := if target ≤ nowMs then target + 86400000 else target
  max MIN_SECONDS ((nextMs - nowMs) / 1000)

/-- JavaScript `parseInt(s, 10)` restricted to the non-negative decimal
strings the schedule uses; `none` models `NaN`. -/
def jsParseIntNat (s : String) : Option Nat :=
  let ds := s.data.takeWhile Char.isDigit
  if ds.isEmpty then none
  else some (ds.foldl (fun n c => n * 10 + (c.toNat - 48)) 0)

/-- JavaScript `s.split(":")` on the character level. -/
def splitColonAux : List Char → List Char → List (List Char)
  | [], acc => [acc.reverse]
  | c :: rest, acc =>
    if c = ':' then acc.reverse :: splitColonAux rest []
    else splitColonAux rest (c :: acc)

/-- JavaScript `time.split(":")`. -/
def jsSplitColon (s : String) : List String :=
  (splitColonAux s.data []).map fun l => ⟨l⟩

/-- `NotificationContentInput` fields relevant to the payload contract. -/
structure NotifContent where
  title : String
  body : String
  screen : String
  flowType : String
deriving DecidableEq, Repr

/-- One OS-scheduled notification trigger. -/
structure PendingNotif where
  content : NotifContent
  seconds : Nat
  repeats : Bool
deriving DecidableEq, Repr

/-- The `{ ok, error? }` result of `scheduleLocalNotifications`. -/
structure NotifResult where
  ok : Bool
  error : Option String
deriving DecidableEq, Repr

/-- `scheduleLocalNotifications`: `hasPermission` is the outcome of
`requestNotificationPermissions()`, `osAccepts` whether
`Notifications.scheduleNotificationAsync` resolves (a malformed `time`
producing `NaN` seconds also lands in the rejecting branch).  The prior
pending list is cancelled unconditionally, first. -/
def scheduleLocalNotifications (nowMs : Nat) (time : String)
    (daysOfWeek : List String) (enabled : Bool) (conversationMode : String)
    (hasPermission : Bool) (osAccepts : Bool) (pending : List PendingNotif) :
    List PendingNotif × NotifResult :=
  let cancelled : List PendingNotif := []
  if enabled = false ∨ daysOfWeek = [] then (cancelled, ⟨true, none⟩)
  else if hasPermission = false then
    (cancelled, ⟨false, some "Notification permission denied"⟩)
  else
    match jsSplitColon time with
    | hourStr :: minuteStr :: _ =>
      match jsParseIntNat hourStr, jsParseIntNat minuteStr with
      | some hour, some minute =>
        let seconds := secondsUntilNextOccurrence nowMs hour minute
        let content : NotifContent :=
          { title := "Inner Circle",
            body := if conversationMode = "voice" then
                "Is it a good time to talk? Tap for voice journal."
              else "Time to journal! Tap to write your thoughts.",
            screen := if conversationMode = "voice" then "voice-session"
              else "compose",
            flowType := "scheduled" }
        if osAccepts then ([⟨content, seconds, false⟩], ⟨true, none⟩)
        else (cancelled, ⟨false, some "Failed to schedule"⟩)
      | _, _ => (cancelled, ⟨false, some "Failed to schedule"⟩)
    | _ => (cancelled, ⟨false, some "Failed to schedule"⟩)

lemma scheduleLocalNotifications_len (nowMs : Nat) (time : String)
    (daysOfWeek : List String) (enabled : Bool) (conversationMode : String)
    (hasPermission : Bool) (osAccepts : Bool) (pending : List PendingNotif) :
    (scheduleLocalNotifications nowMs time daysOfWeek enabled conversationMode
      hasPermission osAccepts pending).1.length ≤ 1 := by
  unfold scheduleLocalNotifications
  split
  · simp
  · split
    · simp
    · rcases htime : jsSplitColon time with _ | ⟨h, _ | ⟨m, rest⟩⟩
      · simp [htime]
      · simp [htime]
      · cases hh : jsParseIntNat h with
        | none => simp [htime, hh]
        | some hour =>
            cases hm2 : jsParseIntNat m with
            | none => simp [htime, hh, hm2]
            | some minute =>
                by_cases hos : osAccepts = true <;> simp [htime, hh, hm2, hos]

/-- **C4.** Every `scheduleLocalNotifications` call first cancels all
previously scheduled notifications (the result never retains a prior
trigger and holds at most one); when the schedule is enabled with a
non-empty day list, permission is granted and the OS accepts, the result
is exactly one non-repeating trigger with delay
`secondsUntilNextOccurrence` (which floors at 60 seconds and targets
today's `hour:minute` if still in the future, else tomorrow) and payload
`{screen, flowType: "scheduled"}`; hence after two consecutive calls
exactly one pending trigger exists. -/
theorem scheduleLocalNotifications_resync :
    (∀ (nowMs : Nat) (time : String) (days : List String) (enabled : Bool)
      (mode : String) (perm os : Bool) (pending : List PendingNotif),
      (scheduleLocalNotifications nowMs time days enabled mode perm os
        pending).1.length ≤ 1) ∧
    (∀ (nowMs : Nat) (time hs ms : String) (hour minute : Nat)
      (days : List String) (mode : String) (pending : List PendingNotif),
      jsSplitColon time = [hs, ms] → jsParseIntNat hs = some hour →
      jsParseIntNat ms = some minute → days ≠ [] →
      scheduleLocalNotifications nowMs time days true mode true true pending =
        ([⟨⟨"Inner Circle",
            (if mode = "voice" then
              "Is it a good time to talk? Tap for voice journal."
            else "Time to journal! Tap to write your thoughts."),
            (if mode = "voice" then "voice-session" else "compose"),
            "scheduled"⟩,
          secondsUntilNextOccurrence nowMs hour minute, false⟩],
         ⟨true, none⟩)) ∧
    (∀ (n1 : Nat) (t1 : String) (d1 : List String) (e1 : Bool) (m1 : String)
      (p1 o1 : Bool) (pending : List PendingNotif)
      (nowMs : Nat) (time hs ms : String) (hour minute : Nat)
      (days : List String) (mode : String),
      jsSplitColon time = [hs, ms] → jsParseIntNat hs = some hour →
      jsParseIntNat ms = some minute → days ≠ [] →
      (scheduleLocalNotifications nowMs time days true mode true true
        (scheduleLocalNotifications n1 t1 d1 e1 m1 p1 o1 pending).1).1.length
        = 1) := by
  have hmain : ∀ (nowMs : Nat) (time hs ms : String) (hour minute : Nat)
      (days : List String) (mode : String) (pending : List PendingNotif),
      jsSplitColon time = [hs, ms] → jsParseIntNat hs = some hour →
      jsParseIntNat ms = some minute → days ≠ [] →
      scheduleLocalNotifications nowMs time days true mode true true pending =
        ([⟨⟨"Inner Circle",
            (if mode = "voice" then
              "Is it a good time to talk? Tap for voice journal."
            else "Time to journal! Tap to write your thoughts."),
            (if mode = "voice" then "voice-session" else "compose"),
            "scheduled"⟩,
          secondsUntilNextOccurrence nowMs hour minute, false⟩],
         ⟨true, none⟩) := by
    intro nowMs time hs ms hour minute days mode pending hsplit hh hm hdays
    unfold scheduleLocalNotifications
    rw [hsplit]
    simp [hdays, hh, hm]
  refine ⟨scheduleLocalNotifications_len, hmain, ?_⟩
  intro n1 t1 d1 e1 m1 p1 o1 pending nowMs time hs ms hour minute days mode
    hsplit hh hm hdays
  rw [hmain nowMs time hs ms hour minute days mode _ hsplit hh hm hdays]
  rfl

/-- Witness for `scheduleLocalNotifications_resync`: schedule saved at
08:59 local time for 09:00 daily; two consecutive calls leave exactly one
pending one-shot trigger, 60 seconds out (floor applied), with the
voice-session payload. -/
theorem scheduleLocalNotifications_resync_witness :
    scheduleLocalNotifications 32340000 "09:00" ["mon"] true "voice" true true
        [] =
      ([⟨⟨"Inner Circle", "Is it a good time to talk? Tap for voice journal.",
          "voice-session", "scheduled"⟩,
        secondsUntilNextOccurrence 32340000 9 0, false⟩], ⟨true, none⟩) ∧
    (scheduleLocalNotifications 32340000 "09:00" ["mon"] true "voice" true true
      (scheduleLocalNotifications 0 "21:30" ["tue"] true "text" true true
        []).1).1.length = 1 ∧
    secondsUntilNextOccurrence 32340000 9 0 = 60 := by
  have h := scheduleLocalNotifications_resync
  refine ⟨?_, ?_, by decide⟩
  · have h2 := h.2.1 32340000 "09:00" "09" "00" 9 0 ["mon"] "voice" []
      (by decide) (by decide) (by decide) (by decide)
    simpa using h2
  · exact h.2.2 0 "21:30" ["tue"] true "text" true true [] 32340000 "09:00"
      "09" "00" 9 0 ["mon"] "voice" (by decide) (by decide) (by decide)
      (by decide)

/-! ## Degraded-mode transcription fallback (`transcribeAudioFile`)

With no provider credential configured, `transcribeAudioFile` sets
`fullTranscript.current =
  sampleTranscripts[Math.floor(Math.random() * sampleTranscripts.length)]`.
The random draw is modelled as a `Fin 5` argument. -/

/-- The source's `sampleTranscripts` array. -/
def sampleTranscripts : List String :=
  ["I had a really productive day today",
   "Feeling a bit stressed about work",
   "Had a wonderful conversation with a friend",
   "I\x27ve been thinking about my goals",
   "Today was challenging but rewarding"]

/-- The transcript substituted on the no-credential path, as a function of
the random draw. -/
def transcribeFallback (r : Fin 5) : String :=
  sampleTranscripts.get (Fin.cast (by rfl) r)

/-- **C8 counterexample.** The no-credential placeholder transcript is not
fixed: two draws of the random index produce two different transcripts, so
the degraded mode is not deterministic as claimed. -/
theorem transcribeFallback_not_deterministic :
    ¬ ∃ t : String, ∀ r : Fin 5, transcribeFallback r = t := by
  rintro ⟨t, h⟩
  have h01 : transcribeFallback 0 = transcribeFallback 1 := by rw [h 0, h 1]
  revert h01
  decide

/-- **C8 (amended).** On the no-credential path the substituted transcript
is always drawn from the fixed five-element `sampleTranscripts` list (and
is non-empty); membership in that list is deterministic, but which element
is chosen is random. -/
theorem transcribeFallback_in_samples (r : Fin 5) :
    transcribeFallback r ∈ sampleTranscripts ∧ transcribeFallback r ≠ "" := by
  constructor <;> fin_cases r <;> decide

/-! ## Audio-session mode across `stopListening` exit paths

`startListening` puts the shared OS audio session into recording mode
(`allowsRecordingIOS: true`).  The body of `stopListening` is one `try`
block ending in `Audio.setAudioModeAsync({ allowsRecordingIOS: false })`;
its `catch` handler only reports the error.  The unmount `cleanup`
stops the recording, closes the socket and stops speech.  Each step is an
action; an oracle says which action throws. -/

inductive StopAct
  | stopRecord
  | closeSocket
  | resolveTranscript
  | processTranscript
  | resetAudioMode
  | stopSpeech
  | reportError
deriving DecidableEq, Repr

/-- The `try` body of `stopListening`, in program order. -/
def stopListeningTry : List StopAct :=
  [StopAct.stopRecord, StopAct.closeSocket, StopAct.resolveTranscript,
   StopAct.processTranscript, StopAct.resetAudioMode]

/-- The `catch` handler of `stopListening`: `setState`/`onError` only. -/
def stopListeningCatch : List StopAct := [StopAct.reportError]

/-- The unmount `cleanup` of `useVoiceAI`. -/
def cleanupActs : List StopAct :=
  [StopAct.stopRecord, StopAct.closeSocket, StopAct.stopSpeech]

/-- Run actions in order, threading `allowsRecordingIOS`; an action whose
oracle entry is `true` throws and aborts the remainder.  Only
`resetAudioMode` touches the flag.  Returns the final flag and whether a
throw escaped. -/
def runActs (throws : StopAct → Bool) (allows : Bool) :
    List StopAct → Bool × Bool
  | [] => (allows, false)
  | a :: rest =>
    if throws a then (allows, true)
    else runActs throws
      (if a = StopAct.resetAudioMode then false else allows) rest

/-- `stopListening` as seen by the audio-session flag: run the `try`
body; if it threw, run the `catch` handler.  Returns
`allowsRecordingIOS` on exit. -/
def stopListeningAudio (throws : StopAct → Bool) (allows : Bool) : Bool :=
  let tryRun := runActs throws allows stopListeningTry
  if tryRun.2 then (runActs throws tryRun.1 stopListeningCatch).1
  else tryRun.1

/-- **C9 counterexample.** When `recording.current.stopAndUnloadAsync()`
throws while the audio session is in recording mode, `stopListening`
exits through the `catch` handler with `allowsRecordingIOS` still `true`:
the recording-mode mutation is not released on the error exit path. -/
theorem audioMode_not_reset_on_error_path :
    stopListeningAudio (fun a => a == StopAct.stopRecord) true = true := by
  decide

/-- **C9 (amended).** On the normal (non-throwing) exit path
`stopListening` resets the shared audio session to non-recording mode;
but on the error path where stopping or processing the recording throws,
the `catch` handler reports the error without resetting the audio mode
(it leaves the flag as it was), and the unmount `cleanup` contains no
audio-mode reset either. -/
theorem audioMode_reset_paths (throws : StopAct → Bool) (allows : Bool) :
    ((∀ a, throws a = false) → stopListeningAudio throws allows = false) ∧
    (throws StopAct.stopRecord = true →
      stopListeningAudio throws allows = allows) ∧
    StopAct.resetAudioMode ∉ stopListeningCatch ∧
    StopAct.resetAudioMode ∉ cleanupActs := by
  refine ⟨?_, ?_, by decide, by decide⟩
  · intro h
    simp [stopListeningAudio, stopListeningTry, runActs, h]
  · intro h
    by_cases hre : throws StopAct.reportError = true <;>
      simp [stopListeningAudio, stopListeningTry, stopListeningCatch,
        runActs, h, hre]

/-- Witness for `audioMode_reset_paths`: with no throws the flag ends
`false`; with `stopRecord` throwing it stays `true`. -/
theorem audioMode_reset_paths_witness :
    stopListeningAudio (fun _ => false) true = false ∧
    stopListeningAudio (fun a => a == StopAct.stopRecord) true = true := by
  refine ⟨(audioMode_reset_paths (fun _ => false) true).1 (fun a => rfl), ?_⟩
  exact (audioMode_reset_paths (fun a => a == StopAct.stopRecord) true).2.1 rfl

end InnerCircle
